import Mathlib

/-!
Shallow embedding of the e-commerce API (src/main.py, src/db.py).

The document store is modelled as in-memory lists of records with a
server-side id counter (`nextId`) and an opaque clock value (`now`) standing
in for `datetime.utcnow().isoformat()`.  A request-supplied id string is
`Option OId`: `none` is a string rejected by `ObjectId.is_valid`, `some n`
a well-formed ObjectId.  Prices (Python floats) are modelled as rationals;
quantities are Python ints, hence `Int`.  Handlers that write state return
`DB × Except e α`: on the error branch the returned `DB` is the state after
exactly the writes that executed before the exception was raised.
-/

/-- A MongoDB ObjectId, modelled as a natural number. -/
abbrev OId := Nat

structure Product where
  pid : OId
  name : String
  description : String
  price : ℚ
  image : String
  category : String
  deriving DecidableEq

structure User where
  uid : OId
  username : String
  email : String
  password : String
  created_at : Nat
  deriving DecidableEq

structure CartItem where
  product_id : OId
  quantity : Int
  deriving DecidableEq

structure Cart where
  cid : OId
  user_id : OId
  items : List CartItem
  updated_at : Nat
  deriving DecidableEq

structure OrderItem where
  product_id : OId
  product_name : String
  quantity : Int
  price : ℚ
  subtotal : ℚ
  deriving DecidableEq

structure Order where
  oid : OId
  user_id : OId
  items : List OrderItem
  total_amount : ℚ
  status : String
  created_at : Nat
  deriving DecidableEq

/-- The four collections of db.py plus the id generator and the clock. -/
structure DB where
  products : List Product
  users : List User
  carts : List Cart
  orders : List Order
  nextId : OId
  now : Nat
  deriving DecidableEq

structure HttpError where
  status_code : Nat
  detail : String
  deriving DecidableEq

/-- `products_collection.find_one({"_id": ObjectId(product_id)})`:
first document whose `_id` matches. -/
def findProduct (db : DB) (pid : OId) : Option Product :=
  db.products.find? (fun p => p.pid == pid)

/-- `carts_collection.find_one({"user_id": ObjectId(user_id)})`. -/
def findCart (db : DB) (uid : OId) : Option Cart :=
  db.carts.find? (fun c => c.user_id == uid)

/-- Modelled from the spec: utils.py (`hash_password`) is not under src/; the
spec describes it as an opaque one-way hash primitive, so handlers are
parametrized over it. -/
def HashFun := String → String

/-- Modelled from the spec: utils.py (`verify_password`) is not under src/;
an opaque verify primitive taking the plaintext and the stored hash. -/
def VerifyFun := String → String → Bool

/-- `register_user` (src/main.py lines 74-115): pre-check on username OR
email, then insert the user (password hashed) and an empty cart linked to
the new user id. -/
def register_user (hashp : HashFun) (db : DB)
    (username email password : String) : DB × Except HttpError OId :=
  match db.users.find? (fun u => u.username == username || u.email == email) with
  | some _ => (db, .error ⟨409, "Username or email already exists"⟩)
  | none =>
    let uid := db.nextId
    let user : User := ⟨uid, username, email, hashp password, db.now⟩
    let cart : Cart := ⟨db.nextId + 1, uid, [], db.now⟩
    ({db with
        users := db.users ++ [user]
        carts := db.carts ++ [cart]
        nextId := db.nextId + 2}, .ok uid)

/-- `login_user` (src/main.py lines 118-149): match the identifier against
username and email; unknown identifier and failed verification both raise
401 "Invalid credentials". -/
def login_user (verify : VerifyFun) (db : DB)
    (username_or_email password : String) : Except HttpError (OId × String) :=
  match db.users.find? (fun u =>
      u.username == username_or_email || u.email == username_or_email) with
  | none => .error ⟨401, "Invalid credentials"⟩
  | some user =>
    if verify password user.password then .ok (user.uid, user.username)
    else .error ⟨401, "Invalid credentials"⟩

/-- The add_to_cart merge loop (src/main.py lines 193-203): increment the
quantity of the first entry whose product_id matches and stop; if none
matches, append a new entry at the end. -/
def mergeCartItems (items : List CartItem) (pid : OId) (q : Int) : List CartItem :=
  match items with
  | [] => [⟨pid, q⟩]
  | item :: rest =>
    if item.product_id == pid then {item with quantity := item.quantity + q} :: rest
    else item :: mergeCartItems rest pid q

/-- `carts_collection.update_one({"_id": cid}, {"$set": ...})`: replaces the
items and timestamp of the first document whose `_id` matches. -/
def updateCartById (carts : List Cart) (cid : OId) (items : List CartItem)
    (now : Nat) : List Cart :=
  match carts with
  | [] => []
  | c :: rest =>
    if c.cid == cid then {c with items := items, updated_at := now} :: rest
    else c :: updateCartById rest cid items now

/-- `carts_collection.update_one({"user_id": uid}, {"$set": {"items": [], ...}})`
as issued by checkout: clears the first cart whose user_id matches. -/
def clearCartByUser (carts : List Cart) (uid : OId) (now : Nat) : List Cart :=
  match carts with
  | [] => []
  | c :: rest =>
    if c.user_id == uid then {c with items := [], updated_at := now} :: rest
    else c :: clearCartByUser rest uid now

/-- `add_to_cart` (src/main.py lines 152-214): validate both ids, require the
product to exist, then either create a cart ad hoc holding the single new
entry, or merge into the existing cart and write it back. The quantity is
never range-checked. -/
def add_to_cart (db : DB) (user_id product_id : Option OId) (quantity : Int) :
    DB × Except HttpError String :=
  match user_id with
  | none => (db, .error ⟨422, "Invalid user ID"⟩)
  | some uid =>
    match product_id with
    | none => (db, .error ⟨422, "Invalid product ID"⟩)
    | some pid =>
      match findProduct db pid with
      | none => (db, .error ⟨404, "Product not found"⟩)
      | some _ =>
        match findCart db uid with
        | none =>
          let cart : Cart := ⟨db.nextId, uid, [⟨pid, quantity⟩], db.now⟩
          ({db with carts := db.carts ++ [cart], nextId := db.nextId + 1},
            .ok "Product added to cart successfully")
        | some cart =>
          ({db with carts :=
              updateCartById db.carts cart.cid (mergeCartItems cart.items pid quantity) db.now},
            .ok "Product added to cart successfully")

/-- One line of the cart view assembled by get_cart: the joined product, the
stored quantity, and subtotal = current price × stored quantity. -/
structure CartLine where
  product : Product
  quantity : Int
  subtotal : ℚ
  deriving DecidableEq

/-- get_cart response shape: either the "Cart is empty" message (absent or
empty cart) or the joined view. -/
inductive CartView where
  | emptyCart : CartView
  | full (user_id : OId) (items : List CartLine) (total_items : Int) : CartView
  deriving DecidableEq

/-- The get_cart join loop (src/main.py lines 232-240): keep the lines whose
product still resolves, silently dropping the stale references. -/
def joinItems (db : DB) (items : List CartItem) : List CartLine :=
  items.filterMap (fun item =>
    (findProduct db item.product_id).map (fun p =>
      ⟨p, item.quantity, p.price * (item.quantity : ℚ)⟩))

/-- `sum(item["quantity"] for item in cart["items"])`. -/
def sumQty (items : List CartItem) : Int :=
  (items.map (fun it => it.quantity)).sum

/-- `get_cart` (src/main.py lines 217-246): total_items is computed over the
stored items list, not over the joined lines. -/
def get_cart (db : DB) (user_id : Option OId) : Except HttpError CartView :=
  match user_id with
  | none => .error ⟨422, "Invalid user ID"⟩
  | some uid =>
    match findCart db uid with
    | none => .ok .emptyCart
    | some cart =>
      if cart.items.isEmpty then .ok .emptyCart
      else .ok (.full uid (joinItems db cart.items) (sumQty cart.items))

/-- The checkout snapshot loop (src/main.py lines 268-282): one order line
per cart item whose product still resolves, skipping stale references. -/
def buildOrderItems (db : DB) (items : List CartItem) : List OrderItem :=
  items.filterMap (fun item =>
    (findProduct db item.product_id).map (fun p =>
      ⟨item.product_id, p.name, item.quantity, p.price,
        p.price * (item.quantity : ℚ)⟩))

/-- `grand_total`: the running sum of the snapshot subtotals. -/
def grandTotal (oitems : List OrderItem) : ℚ :=
  (oitems.map (fun it => it.subtotal)).sum

/-- `sum(item["quantity"] for item in order_items)`. -/
def sumQtyO (oitems : List OrderItem) : Int :=
  (oitems.map (fun it => it.quantity)).sum

/-- The order_summary returned by checkout. -/
structure CheckoutSummary where
  order_id : OId
  items : List OrderItem
  total_amount : ℚ
  total_items : Int
  deriving DecidableEq

/-- Checkout failures: an HTTPException, or the document store raising on the
order insert. -/
inductive CheckoutErr where
  | http (e : HttpError)
  | storeFailure
  deriving DecidableEq

/-- `checkout` (src/main.py lines 249-312). `orderInsertOk` models whether
`orders_collection.insert_one` succeeds: the source performs the order insert
strictly before the cart-clearing update, so when the insert raises, control
leaves the handler with no write applied and the cart intact. -/
def checkout (orderInsertOk : Bool) (db : DB) (user_id : Option OId) :
    DB × Except CheckoutErr CheckoutSummary :=
  match user_id with
  | none => (db, .error (.http ⟨422, "Invalid user ID"⟩))
  | some uid =>
    match findCart db uid with
    | none => (db, .error (.http ⟨400, "Cart is empty"⟩))
    | some cart =>
      if cart.items.isEmpty then (db, .error (.http ⟨400, "Cart is empty"⟩))
      else
        let order_items := buildOrderItems db cart.items
        let grand_total := grandTotal order_items
        if orderInsertOk then
          let order : Order :=
            ⟨db.nextId, uid, order_items, grand_total, "completed", db.now⟩
          let db1 := {db with orders := db.orders ++ [order], nextId := db.nextId + 1}
          (({db1 with carts := clearCartByUser db1.carts uid db.now}),
            .ok ⟨order.oid, order_items, grand_total, sumQtyO order_items⟩)
        else
          (db, .error .storeFailure)

/-- The quantity stored in a cart for a given product: the quantity of the
first matching entry, 0 when absent. -/
def storedQty (items : List CartItem) (pid : OId) : Int :=
  match items.find? (fun it => it.product_id == pid) with
  | some it => it.quantity
  | none => 0

/-- The product ids of a stored items list. -/
def itemPids (items : List CartItem) : List OId :=
  items.map (fun it => it.product_id)

/-- Cart invariant (spec §3): at most one entry per distinct product_id. -/
def cartInv (c : Cart) : Prop := (itemPids c.items).Nodup

/-- The invariant over every cart in the store. -/
def dbCartInv (db : DB) : Prop := ∀ c ∈ db.carts, cartInv c

instance : DecidablePred cartInv := fun c => by
  unfold cartInv; infer_instance

instance (db : DB) : Decidable (dbCartInv db) := by
  unfold dbCartInv; infer_instance

/-! Concrete sample data, mirroring the seed catalog of db.py. -/

def prodA : Product := ⟨100, "Laptop", "High-performance gaming laptop", 10, "u1", "Electronics"⟩

def prodB : Product := ⟨101, "Coffee Mug", "Ceramic coffee mug with handle", 5/2, "u2", "Home"⟩

/-- A store with one user whose cart holds two units of `prodA`. -/
def dbW : DB :=
  ⟨[prodA, prodB], [⟨1, "alice", "alice@example.com", "#pw", 0⟩],
    [⟨50, 1, [⟨100, 2⟩], 0⟩], [], 200, 7⟩

/-- A store where user 1 owns an empty cart. -/
def dbEmptyCart : DB := ⟨[prodA], [], [⟨50, 1, [], 0⟩], [], 200, 7⟩

/-- A store where every item of the cart references a missing product. -/
def dbStale : DB := ⟨[prodA], [], [⟨50, 1, [⟨999, 3⟩], 0⟩], [], 200, 7⟩

/-- A store with no cart at all for user 1. -/
def dbNoCart : DB := ⟨[prodA], [], [], [], 200, 7⟩

/-- A store whose cart mixes a live reference and a stale one. -/
def dbMixed : DB := ⟨[prodA], [], [⟨50, 1, [⟨100, 2⟩, ⟨999, 3⟩], 0⟩], [], 200, 7⟩

/-- A concrete stand-in for the opaque hash primitive. -/
def hashW : HashFun := fun s => String.append "h:" s

/-- A concrete stand-in for the opaque verify primitive. -/
def verifyW : VerifyFun := fun p h => String.append "h:" p == h

/-! Helper lemmas. -/

theorem itemPids_cons (it : CartItem) (l : List CartItem) :
    itemPids (it :: l) = it.product_id :: itemPids l := rfl

theorem sumQty_cons (it : CartItem) (l : List CartItem) :
    sumQty (it :: l) = it.quantity + sumQty l := by
  simp [sumQty]

theorem mergeCartItems_of_not_mem {items : List CartItem} {pid : OId} {q : Int}
    (h : pid ∉ itemPids items) :
    mergeCartItems items pid q = items ++ [⟨pid, q⟩] := by
  induction items with
  | nil => rfl
  | cons item rest ih =>
    rw [itemPids_cons] at h
    have h1 : item.product_id ≠ pid := by
      intro e
      exact h (by rw [e]; exact List.mem_cons_self _ _)
    have h2 : pid ∉ itemPids rest := fun m => h (List.mem_cons_of_mem _ m)
    simp [mergeCartItems, h1, ih h2]

theorem itemPids_mergeCartItems (items : List CartItem) (pid : OId) (q : Int) :
    itemPids (mergeCartItems items pid q) =
      if pid ∈ itemPids items then itemPids items else itemPids items ++ [pid] := by
  induction items with
  | nil => simp [mergeCartItems, itemPids]
  | cons item rest ih =>
    by_cases hp : item.product_id = pid
    · simp [mergeCartItems, hp, itemPids_cons, List.mem_cons]
    · by_cases hm : pid ∈ itemPids rest
      · simp [mergeCartItems, hp, itemPids_cons, List.mem_cons, ih, hm, Ne.symm hp]
      · simp [mergeCartItems, hp, itemPids_cons, List.mem_cons, ih, hm, Ne.symm hp]

theorem nodup_itemPids_mergeCartItems {items : List CartItem} {pid : OId} {q : Int}
    (h : (itemPids items).Nodup) :
    (itemPids (mergeCartItems items pid q)).Nodup := by
  rw [itemPids_mergeCartItems]
  by_cases hm : pid ∈ itemPids items
  · simpa [hm]
  · simp [hm, List.nodup_append, h]

theorem storedQty_cons_self {it : CartItem} {pid : OId} (l : List CartItem)
    (h : it.product_id = pid) :
    storedQty (it :: l) pid = it.quantity := by
  simp [storedQty, List.find?_cons_of_pos, h]

theorem storedQty_cons_ne {it : CartItem} {pid : OId} (l : List CartItem)
    (h : it.product_id ≠ pid) :
    storedQty (it :: l) pid = storedQty l pid := by
  have hb : (it.product_id == pid) = false := by simpa using h
  simp [storedQty, List.find?_cons_of_neg, hb]

theorem storedQty_mergeCartItems (items : List CartItem) (pid : OId) (q : Int) :
    storedQty (mergeCartItems items pid q) pid = storedQty items pid + q := by
  induction items with
  | nil =>
    simp [mergeCartItems, storedQty, List.find?]
  | cons item rest ih =>
    by_cases hp : item.product_id = pid
    · have e1 : mergeCartItems (item :: rest) pid q =
          {item with quantity := item.quantity + q} :: rest := by
        simp [mergeCartItems, hp]
      rw [e1, storedQty_cons_self rest (by simpa using hp),
        storedQty_cons_self rest hp]
    · have e1 : mergeCartItems (item :: rest) pid q =
          item :: mergeCartItems rest pid q := by
        simp [mergeCartItems, hp]
      rw [e1, storedQty_cons_ne _ hp, storedQty_cons_ne _ hp, ih]

theorem countP_mergeCartItems {items : List CartItem} {pid : OId} (q : Int)
    (h : (itemPids items).Nodup) :
    (mergeCartItems items pid q).countP (fun it => it.product_id == pid) = 1 := by
  induction items with
  | nil => simp [mergeCartItems, List.countP_cons]
  | cons item rest ih =>
    rw [itemPids_cons, List.nodup_cons] at h
    by_cases hp : item.product_id = pid
    · have e1 : mergeCartItems (item :: rest) pid q =
          {item with quantity := item.quantity + q} :: rest := by
        simp [mergeCartItems, hp]
      have h0 : rest.countP (fun it => it.product_id == pid) = 0 := by
        refine List.countP_eq_zero.mpr (fun it hm hb => ?_)
        have : pid ∈ itemPids rest := by
          have := List.mem_map_of_mem (fun it => it.product_id) hm
          simpa [itemPids, (by simpa using hb : it.product_id = pid)] using this
        exact h.1 (hp ▸ this)
      simp [e1, List.countP_cons, hp, h0]
    · have e1 : mergeCartItems (item :: rest) pid q =
          item :: mergeCartItems rest pid q := by
        simp [mergeCartItems, hp]
      simp [e1, List.countP_cons, hp, ih h.2]

theorem mergeCartItems_append {xs : List CartItem} {pid : OId} (q1 q2 : Int)
    (h : pid ∉ itemPids xs) :
    mergeCartItems (xs ++ [⟨pid, q1⟩]) pid q2 = xs ++ [⟨pid, q1 + q2⟩] := by
  induction xs with
  | nil => simp [mergeCartItems]
  | cons x rest ih =>
    rw [itemPids_cons] at h
    have h1 : x.product_id ≠ pid := by
      intro e
      exact h (by rw [e]; exact List.mem_cons_self _ _)
    have h2 : pid ∉ itemPids rest := fun m => h (List.mem_cons_of_mem _ m)
    simp [mergeCartItems, h1, ih h2]

theorem map_cid_updateCartById (carts : List Cart) (cid : OId) (items : List CartItem)
    (now : Nat) :
    (updateCartById carts cid items now).map (fun c => c.cid) =
      carts.map (fun c => c.cid) := by
  induction carts with
  | nil => rfl
  | cons c rest ih =>
    by_cases h : c.cid = cid
    · simp [updateCartById, h]
    · simp [updateCartById, h, ih]

theorem findCart_updateCartById {carts : List Cart} {uid : OId} {cart : Cart}
    (h : carts.find? (fun c => c.user_id == uid) = some cart)
    (hnd : (carts.map (fun c => c.cid)).Nodup) (items : List CartItem) (now : Nat) :
    (updateCartById carts cart.cid items now).find? (fun c => c.user_id == uid) =
      some {cart with items := items, updated_at := now} := by
  induction carts with
  | nil => simp [List.find?] at h
  | cons c rest ih =>
    rw [List.map_cons, List.nodup_cons] at hnd
    by_cases hu : c.user_id = uid
    · rw [List.find?_cons_of_pos _ (by simpa using hu)] at h
      have hc : c = cart := by injection h
      subst hc
      have e1 : updateCartById (c :: rest) c.cid items now =
          {c with items := items, updated_at := now} :: rest := by
        simp [updateCartById]
      rw [e1, List.find?_cons_of_pos _ (by simpa using hu)]
    · rw [List.find?_cons_of_neg _ (by simpa using hu)] at h
      have hmem : cart ∈ rest := List.mem_of_find?_eq_some h
      have hne : c.cid ≠ cart.cid := by
        intro e
        exact hnd.1 (e ▸ List.mem_map_of_mem (fun c => c.cid) hmem)
      have e1 : updateCartById (c :: rest) cart.cid items now =
          c :: updateCartById rest cart.cid items now := by
        simp [updateCartById, hne]
      rw [e1, List.find?_cons_of_neg _ (by simpa using hu)]
      exact ih h hnd.2

theorem findCart_clearCartByUser {carts : List Cart} {uid : OId} {cart : Cart}
    (h : carts.find? (fun c => c.user_id == uid) = some cart) (now : Nat) :
    (clearCartByUser carts uid now).find? (fun c => c.user_id == uid) =
      some {cart with items := [], updated_at := now} := by
  induction carts with
  | nil => simp [List.find?] at h
  | cons c rest ih =>
    by_cases hu : c.user_id = uid
    · rw [List.find?_cons_of_pos _ (by simpa using hu)] at h
      have hc : c = cart := by injection h
      subst hc
      have e1 : clearCartByUser (c :: rest) uid now =
          {c with items := [], updated_at := now} :: rest := by
        simp [clearCartByUser, hu]
      rw [e1, List.find?_cons_of_pos _ (by simpa using hu)]
    · rw [List.find?_cons_of_neg _ (by simpa using hu)] at h
      have e1 : clearCartByUser (c :: rest) uid now =
          c :: clearCartByUser rest uid now := by
        simp [clearCartByUser, hu]
      rw [e1, List.find?_cons_of_neg _ (by simpa using hu)]
      exact ih h

theorem cartInv_updateCartById {carts : List Cart} (hall : ∀ c ∈ carts, cartInv c)
    {items : List CartItem} (hit : (itemPids items).Nodup) (cid : OId) (now : Nat) :
    ∀ c ∈ updateCartById carts cid items now, cartInv c := by
  induction carts with
  | nil => simp [updateCartById]
  | cons c rest ih =>
    have htl : ∀ x ∈ rest, cartInv x := fun x hx => hall x (List.mem_cons_of_mem _ hx)
    by_cases h : c.cid = cid
    · have e1 : updateCartById (c :: rest) cid items now =
          {c with items := items, updated_at := now} :: rest := by
        simp [updateCartById, h]
      rw [e1]
      intro x hx
      rcases List.mem_cons.mp hx with hx | hx
      · subst hx; exact hit
      · exact htl x hx
    · have e1 : updateCartById (c :: rest) cid items now =
          c :: updateCartById rest cid items now := by
        simp [updateCartById, h]
      rw [e1]
      intro x hx
      rcases List.mem_cons.mp hx with hx | hx
      · subst hx; exact hall x (List.mem_cons_self _ _)
      · exact ih htl x hx

theorem cartInv_clearCartByUser {carts : List Cart} (hall : ∀ c ∈ carts, cartInv c)
    (uid : OId) (now : Nat) :
    ∀ c ∈ clearCartByUser carts uid now, cartInv c := by
  induction carts with
  | nil => simp [clearCartByUser]
  | cons c rest ih =>
    have htl : ∀ x ∈ rest, cartInv x := fun x hx => hall x (List.mem_cons_of_mem _ hx)
    by_cases h : c.user_id = uid
    · have e1 : clearCartByUser (c :: rest) uid now =
          {c with items := [], updated_at := now} :: rest := by
        simp [clearCartByUser, h]
      rw [e1]
      intro x hx
      rcases List.mem_cons.mp hx with hx | hx
      · subst hx; simp [cartInv, itemPids]
      · exact htl x hx
    · have e1 : clearCartByUser (c :: rest) uid now =
          c :: clearCartByUser rest uid now := by
        simp [clearCartByUser, h]
      rw [e1]
      intro x hx
      rcases List.mem_cons.mp hx with hx | hx
      · subst hx; exact hall x (List.mem_cons_self _ _)
      · exact ih htl x hx

theorem joinItems_forall2 (db : DB) (items : List CartItem) :
    List.Forall₂ (fun (it : CartItem) (line : CartLine) =>
        findProduct db it.product_id = some line.product ∧
        line.quantity = it.quantity ∧
        line.subtotal = line.product.price * (it.quantity : ℚ))
      (items.filter (fun it => (findProduct db it.product_id).isSome))
      (joinItems db items) := by
  induction items with
  | nil => simp [joinItems]
  | cons it rest ih =>
    cases hp : findProduct db it.product_id with
    | none =>
      have e1 : joinItems db (it :: rest) = joinItems db rest := by
        simp [joinItems, List.filterMap_cons, hp]
      rw [e1, List.filter_cons_of_neg (by simp [hp])]
      exact ih
    | some p =>
      have e1 : joinItems db (it :: rest) =
          ⟨p, it.quantity, p.price * (it.quantity : ℚ)⟩ :: joinItems db rest := by
        simp [joinItems, List.filterMap_cons, hp]
      rw [e1, List.filter_cons_of_pos (by simp [hp])]
      exact List.Forall₂.cons ⟨hp, rfl, rfl⟩ ih

theorem buildOrderItems_forall2 (db : DB) (items : List CartItem) :
    List.Forall₂ (fun (it : CartItem) (oi : OrderItem) =>
        ∃ p, findProduct db it.product_id = some p ∧
          oi.product_id = it.product_id ∧ oi.quantity = it.quantity ∧
          oi.price = p.price ∧ oi.subtotal = p.price * (it.quantity : ℚ))
      (items.filter (fun it => (findProduct db it.product_id).isSome))
      (buildOrderItems db items) := by
  induction items with
  | nil => simp [buildOrderItems]
  | cons it rest ih =>
    cases hp : findProduct db it.product_id with
    | none =>
      have e1 : buildOrderItems db (it :: rest) = buildOrderItems db rest := by
        simp [buildOrderItems, List.filterMap_cons, hp]
      rw [e1, List.filter_cons_of_neg (by simp [hp])]
      exact ih
    | some p =>
      have e1 : buildOrderItems db (it :: rest) =
          ⟨it.product_id, p.name, it.quantity, p.price, p.price * (it.quantity : ℚ)⟩ ::
            buildOrderItems db rest := by
        simp [buildOrderItems, List.filterMap_cons, hp]
      rw [e1, List.filter_cons_of_pos (by simp [hp])]
      exact List.Forall₂.cons ⟨p, hp, rfl, rfl, rfl, rfl⟩ ih

theorem sumQty_split (db : DB) (items : List CartItem) :
    sumQty items =
      ((joinItems db items).map (fun l => l.quantity)).sum +
        sumQty (items.filter (fun it => (findProduct db it.product_id).isNone)) := by
  induction items with
  | nil => simp [sumQty, joinItems]
  | cons it rest ih =>
    cases hp : findProduct db it.product_id with
    | none =>
      have e1 : joinItems db (it :: rest) = joinItems db rest := by
        simp [joinItems, List.filterMap_cons, hp]
      rw [e1, List.filter_cons_of_pos (by simp [hp]), sumQty_cons, sumQty_cons, ih]
      omega
    | some p =>
      have e1 : joinItems db (it :: rest) =
          ⟨p, it.quantity, p.price * (it.quantity : ℚ)⟩ :: joinItems db rest := by
        simp [joinItems, List.filterMap_cons, hp]
      rw [e1, List.filter_cons_of_neg (by simp [hp]), sumQty_cons, ih]
      simp
      omega

theorem buildOrderItems_eq_nil {db : DB} {items : List CartItem}
    (h : ∀ it ∈ items, findProduct db it.product_id = none) :
    buildOrderItems db items = [] := by
  refine List.filterMap_eq_nil_iff.mpr (fun it hm => ?_)
  rw [h it hm]
  rfl

/-- C8: for every well-formed user_id with no existing cart and every existing
product, add_to_cart succeeds and creates a new cart whose items list contains
exactly the one entry with that product_id and quantity (create-if-missing). -/
theorem claim8 (db : DB) (uid pid : OId) (q : Int) (p : Product)
    (hp : findProduct db pid = some p) (hc : findCart db uid = none) :
    add_to_cart db (some uid) (some pid) q =
      ({db with
          carts := db.carts ++ [⟨db.nextId, uid, [⟨pid, q⟩], db.now⟩]
          nextId := db.nextId + 1},
        .ok "Product added to cart successfully") := by
  simp [add_to_cart, hp, hc]

theorem claim8_witness :
    findProduct dbNoCart 100 = some prodA ∧ findCart dbNoCart 1 = none ∧
    add_to_cart dbNoCart (some 1) (some 100) 3 =
      ({dbNoCart with
          carts := dbNoCart.carts ++ [⟨dbNoCart.nextId, 1, [⟨100, 3⟩], dbNoCart.now⟩]
          nextId := dbNoCart.nextId + 1},
        .ok "Product added to cart successfully") :=
  ⟨by decide, by decide, claim8 dbNoCart 1 100 3 prodA (by decide) (by decide)⟩

/-- C9: for every non-empty cart all of whose stored items reference missing
products, checkout does not fail: it persists an order with an empty items
list and total_amount 0, reports total_items 0, and still clears the cart. -/
theorem claim9 (db : DB) (uid : OId) (cart : Cart)
    (hc : findCart db uid = some cart) (hne : cart.items ≠ [])
    (hstale : ∀ it ∈ cart.items, findProduct db it.product_id = none) :
    checkout true db (some uid) =
      ({db with
          orders := db.orders ++ [⟨db.nextId, uid, [], 0, "completed", db.now⟩]
          nextId := db.nextId + 1
          carts := clearCartByUser db.carts uid db.now},
        .ok ⟨db.nextId, [], 0, 0⟩) ∧
    ∃ cart2, findCart (checkout true db (some uid)).1 uid = some cart2 ∧
      cart2.items = [] := by
  have hb : buildOrderItems db cart.items = [] := buildOrderItems_eq_nil hstale
  have hie : cart.items.isEmpty = false := by simpa using hne
  have hmain : checkout true db (some uid) =
      ({db with
          orders := db.orders ++ [⟨db.nextId, uid, [], 0, "completed", db.now⟩]
          nextId := db.nextId + 1
          carts := clearCartByUser db.carts uid db.now},
        .ok ⟨db.nextId, [], 0, 0⟩) := by
    simp [checkout, hc, hie, hb, grandTotal, sumQtyO]
  refine ⟨hmain, {cart with items := [], updated_at := db.now}, ?_, rfl⟩
  rw [hmain]
  have hc' : db.carts.find? (fun c => c.user_id == uid) = some cart := hc
  exact findCart_clearCartByUser hc' db.now

theorem claim9_witness :
    checkout true dbStale (some 1) =
      ({dbStale with
          orders := dbStale.orders ++ [⟨dbStale.nextId, 1, [], 0, "completed", dbStale.now⟩]
          nextId := dbStale.nextId + 1
          carts := clearCartByUser dbStale.carts 1 dbStale.now},
        .ok ⟨dbStale.nextId, [], 0, 0⟩) ∧
    ∃ cart2, findCart (checkout true dbStale (some 1)).1 1 = some cart2 ∧
      cart2.items = [] :=
  claim9 dbStale 1 ⟨50, 1, [⟨999, 3⟩], 0⟩ (by decide) (by decide)
    (by intro it hit; fin_cases hit; decide)

/-- C3: checkout has no partial effect: an absent or empty cart fails with the
400 "Cart is empty" condition leaving the store unchanged, and when persisting
the order fails the cart is not cleared, because the order insert happens
strictly before the cart-clearing update. -/
theorem claim3 (db : DB) (uid : OId) :
    (∀ ok : Bool, (findCart db uid = none ∨
        ∃ cart, findCart db uid = some cart ∧ cart.items = []) →
      checkout ok db (some uid) = (db, .error (.http ⟨400, "Cart is empty"⟩))) ∧
    (∀ u : Option OId, (checkout false db u).1 = db) := by
  constructor
  · intro ok h
    rcases h with h | ⟨cart, hcf, he⟩
    · simp [checkout, h]
    · simp [checkout, hcf, he]
  · intro u
    cases u with
    | none => rfl
    | some uid =>
      cases hfc : findCart db uid with
      | none => simp [checkout, hfc]
      | some cart =>
        cases he : cart.items.isEmpty
        · simp [checkout, hfc, he]
        · simp [checkout, hfc, he]

theorem claim3_witness :
    checkout true dbEmptyCart (some 1) =
      (dbEmptyCart, .error (.http ⟨400, "Cart is empty"⟩)) ∧
    (checkout false dbW (some 1)).1 = dbW :=
  ⟨(claim3 dbEmptyCart 1).1 true (Or.inr ⟨⟨50, 1, [], 0⟩, by decide, rfl⟩),
    (claim3 dbW 1).2 (some 1)⟩

/-- C7: a login whose lookup matches no user and a login that matches a user
but fails password verification produce the identical failure value, the 401
"Invalid credentials" error, so the caller cannot tell the cases apart. -/
theorem claim7 (verify : VerifyFun) (db : DB) (ident pw : String) :
    (db.users.find? (fun u => u.username == ident || u.email == ident) = none →
      login_user verify db ident pw = .error ⟨401, "Invalid credentials"⟩) ∧
    (∀ user, db.users.find? (fun u => u.username == ident || u.email == ident) =
        some user →
      verify pw user.password = false →
      login_user verify db ident pw = .error ⟨401, "Invalid credentials"⟩) := by
  constructor
  · intro h
    simp [login_user, h]
  · intro user hf hv
    simp [login_user, hf, hv]

theorem claim7_witness :
    login_user verifyW dbW "nobody" "pw" = .error ⟨401, "Invalid credentials"⟩ ∧
    login_user verifyW dbW "alice" "wrong" = .error ⟨401, "Invalid credentials"⟩ :=
  ⟨(claim7 verifyW dbW "nobody" "pw").1 (by decide),
    (claim7 verifyW dbW "alice" "wrong").2 ⟨1, "alice", "alice@example.com", "#pw", 0⟩
      (by decide) (by decide)⟩

/-- C6: registering a username or email that already belongs to an existing
user fails with the 409 Conflict and leaves the store unchanged (no new User,
no new Cart); on success the password is stored only as its hash and an empty
cart linked to the new user id is created. -/
theorem claim6 (hashp : HashFun) (db : DB) (u e pw : String) :
    ((∃ usr ∈ db.users, usr.username = u ∨ usr.email = e) →
      register_user hashp db u e pw =
        (db, .error ⟨409, "Username or email already exists"⟩)) ∧
    (db.users.find? (fun usr => usr.username == u || usr.email == e) = none →
      register_user hashp db u e pw =
        ({db with
            users := db.users ++ [⟨db.nextId, u, e, hashp pw, db.now⟩]
            carts := db.carts ++ [⟨db.nextId + 1, db.nextId, [], db.now⟩]
            nextId := db.nextId + 2}, .ok db.nextId)) := by
  constructor
  · intro h
    have hs : (db.users.find? (fun usr => usr.username == u || usr.email == e)).isSome := by
      rw [List.find?_isSome]
      rcases h with ⟨usr, hm, h⟩
      exact ⟨usr, hm, by rcases h with h | h <;> simp [h]⟩
    rcases Option.isSome_iff_exists.mp hs with ⟨usr, hf⟩
    simp [register_user, hf]
  · intro h
    simp [register_user, h]

theorem claim6_witness :
    register_user hashW dbW "alice" "new@example.com" "pw" =
      (dbW, .error ⟨409, "Username or email already exists"⟩) ∧
    register_user hashW dbNoCart "bob" "bob@example.com" "pw" =
      ({dbNoCart with
          users := dbNoCart.users ++
            [⟨dbNoCart.nextId, "bob", "bob@example.com", hashW "pw", dbNoCart.now⟩]
          carts := dbNoCart.carts ++
            [⟨dbNoCart.nextId + 1, dbNoCart.nextId, [], dbNoCart.now⟩]
          nextId := dbNoCart.nextId + 2}, .ok dbNoCart.nextId) :=
  ⟨(claim6 hashW dbW "alice" "new@example.com" "pw").1
      ⟨⟨1, "alice", "alice@example.com", "#pw", 0⟩, by decide, Or.inl rfl⟩,
    (claim6 hashW dbNoCart "bob" "bob@example.com" "pw").2 (by decide)⟩

/-- C5: for every non-empty cart, get_cart silently omits the stored items
whose product no longer resolves, each surviving line carries subtotal =
current price times stored quantity, and total_items is the quantity sum over
the stored items list, which equals the sum over the joined lines plus the sum
over the omitted stale items. -/
theorem claim5 (db : DB) (uid : OId) (cart : Cart)
    (hc : findCart db uid = some cart) (hne : cart.items ≠ []) :
    get_cart db (some uid) =
      .ok (.full uid (joinItems db cart.items) (sumQty cart.items)) ∧
    List.Forall₂ (fun (it : CartItem) (line : CartLine) =>
        findProduct db it.product_id = some line.product ∧
        line.quantity = it.quantity ∧
        line.subtotal = line.product.price * (it.quantity : ℚ))
      (cart.items.filter (fun it => (findProduct db it.product_id).isSome))
      (joinItems db cart.items) ∧
    sumQty cart.items =
      ((joinItems db cart.items).map (fun l => l.quantity)).sum +
        sumQty (cart.items.filter (fun it => (findProduct db it.product_id).isNone)) := by
  have hie : cart.items.isEmpty = false := by simpa using hne
  exact ⟨by simp [get_cart, hc, hie], joinItems_forall2 db cart.items,
    sumQty_split db cart.items⟩

theorem claim5_witness :
    get_cart dbMixed (some 1) =
      .ok (.full 1 (joinItems dbMixed [⟨100, 2⟩, ⟨999, 3⟩])
        (sumQty [⟨100, 2⟩, ⟨999, 3⟩])) ∧
    List.Forall₂ (fun (it : CartItem) (line : CartLine) =>
        findProduct dbMixed it.product_id = some line.product ∧
        line.quantity = it.quantity ∧
        line.subtotal = line.product.price * (it.quantity : ℚ))
      (List.filter (fun it => (findProduct dbMixed it.product_id).isSome)
        [⟨100, 2⟩, ⟨999, 3⟩])
      (joinItems dbMixed [⟨100, 2⟩, ⟨999, 3⟩]) ∧
    sumQty [⟨100, 2⟩, ⟨999, 3⟩] =
      ((joinItems dbMixed [⟨100, 2⟩, ⟨999, 3⟩]).map (fun l => l.quantity)).sum +
        sumQty (List.filter (fun it => (findProduct dbMixed it.product_id).isNone)
          [⟨100, 2⟩, ⟨999, 3⟩]) :=
  claim5 dbMixed 1 ⟨50, 1, [⟨100, 2⟩, ⟨999, 3⟩], 0⟩ (by decide) (by decide)

/-- C1: checkout on a cart of N distinct, all-resolving entries persists an
order with exactly N line items whose subtotals each equal current price times
stored quantity, whose total_amount is the sum of the line subtotals, and whose
reported total_items is the sum of the snapshot quantities. -/
theorem claim1 (db : DB) (uid : OId) (cart : Cart)
    (hc : findCart db uid = some cart) (hne : cart.items ≠ [])
    (hnd : (itemPids cart.items).Nodup)
    (hres : ∀ it ∈ cart.items, (findProduct db it.product_id).isSome) :
    ∃ s : CheckoutSummary,
      checkout true db (some uid) =
        ({db with
            orders := db.orders ++
              [⟨db.nextId, uid, s.items, s.total_amount, "completed", db.now⟩]
            nextId := db.nextId + 1
            carts := clearCartByUser db.carts uid db.now}, .ok s) ∧
      s.items.length = cart.items.length ∧
      List.Forall₂ (fun (it : CartItem) (oi : OrderItem) =>
        ∃ p, findProduct db it.product_id = some p ∧
          oi.product_id = it.product_id ∧ oi.quantity = it.quantity ∧
          oi.price = p.price ∧ oi.subtotal = p.price * (it.quantity : ℚ))
        cart.items s.items ∧
      s.total_amount = (s.items.map (fun oi => oi.subtotal)).sum ∧
      s.total_items = (s.items.map (fun oi => oi.quantity)).sum := by
  have hie : cart.items.isEmpty = false := by simpa using hne
  have hfilter : cart.items.filter (fun it => (findProduct db it.product_id).isSome) =
      cart.items := List.filter_eq_self.mpr (fun it hm => by simpa using hres it hm)
  have hf2 := buildOrderItems_forall2 db cart.items
  rw [hfilter] at hf2
  refine ⟨⟨db.nextId, buildOrderItems db cart.items,
    grandTotal (buildOrderItems db cart.items),
    sumQtyO (buildOrderItems db cart.items)⟩, ?_, ?_, hf2, rfl, rfl⟩
  · simp [checkout, hc, hie, grandTotal, sumQtyO]
  · exact hf2.length_eq.symm

theorem claim1_witness :
    ∃ s : CheckoutSummary,
      checkout true dbW (some 1) =
        ({dbW with
            orders := dbW.orders ++
              [⟨dbW.nextId, 1, s.items, s.total_amount, "completed", dbW.now⟩]
            nextId := dbW.nextId + 1
            carts := clearCartByUser dbW.carts 1 dbW.now}, .ok s) ∧
      s.items.length = ([⟨100, 2⟩] : List CartItem).length ∧
      List.Forall₂ (fun (it : CartItem) (oi : OrderItem) =>
        ∃ p, findProduct dbW it.product_id = some p ∧
          oi.product_id = it.product_id ∧ oi.quantity = it.quantity ∧
          oi.price = p.price ∧ oi.subtotal = p.price * (it.quantity : ℚ))
        [⟨100, 2⟩] s.items ∧
      s.total_amount = (s.items.map (fun oi => oi.subtotal)).sum ∧
      s.total_items = (s.items.map (fun oi => oi.quantity)).sum :=
  claim1 dbW 1 ⟨50, 1, [⟨100, 2⟩], 0⟩ (by decide) (by decide) (by decide) (by decide)

/-- C4: every cart-writing operation (registration's cart creation, the ad hoc
cart created by add_to_cart, its merge path, and checkout's clearing) preserves
the invariant that a cart holds at most one entry per distinct product_id. -/
theorem claim4 (db : DB) (hinv : dbCartInv db) :
    (∀ hashp u e pw, dbCartInv (register_user hashp db u e pw).1) ∧
    (∀ uid pid q, dbCartInv (add_to_cart db uid pid q).1) ∧
    (∀ ok uid, dbCartInv (checkout ok db uid).1) := by
  refine ⟨?_, ?_, ?_⟩
  · intro hashp u e pw
    cases hf : db.users.find? (fun usr => usr.username == u || usr.email == e) with
    | some usr => simpa [register_user, hf] using hinv
    | none =>
      simp only [register_user, hf]
      intro c hc2
      rcases List.mem_append.mp hc2 with hc2 | hc2
      · exact hinv c hc2
      · have hc3 : c = ⟨db.nextId + 1, db.nextId, [], db.now⟩ :=
          List.mem_singleton.mp hc2
        subst hc3
        simp [cartInv, itemPids]
  · intro uidO pidO q
    cases uidO with
    | none => exact hinv
    | some uid =>
      cases pidO with
      | none => exact hinv
      | some pid =>
        cases hp : findProduct db pid with
        | none => simpa [add_to_cart, hp] using hinv
        | some p =>
          cases hfc : findCart db uid with
          | none =>
            simp only [add_to_cart, hp, hfc]
            intro c hc2
            rcases List.mem_append.mp hc2 with hc2 | hc2
            · exact hinv c hc2
            · have hc3 : c = ⟨db.nextId, uid, [⟨pid, q⟩], db.now⟩ :=
                List.mem_singleton.mp hc2
              subst hc3
              simp [cartInv, itemPids]
          | some cart =>
            simp only [add_to_cart, hp, hfc]
            exact cartInv_updateCartById hinv
              (nodup_itemPids_mergeCartItems
                (hinv cart (List.mem_of_find?_eq_some hfc)))
              cart.cid db.now
  · intro ok uidO
    cases uidO with
    | none => exact hinv
    | some uid =>
      cases hfc : findCart db uid with
      | none => simpa [checkout, hfc] using hinv
      | some cart =>
        cases he : cart.items.isEmpty with
        | true => simpa [checkout, hfc, he] using hinv
        | false =>
          cases ok with
          | false => simpa [checkout, hfc, he] using hinv
          | true =>
            simp only [checkout, hfc, he]
            exact cartInv_clearCartByUser hinv uid db.now

theorem claim4_witness :
    dbCartInv dbW ∧
    dbCartInv (register_user hashW dbW "bob" "bob@example.com" "pw").1 ∧
    dbCartInv (add_to_cart dbW (some 1) (some 101) 4).1 ∧
    dbCartInv (checkout true dbW (some 1)).1 :=
  ⟨by decide, (claim4 dbW (by decide)).1 hashW "bob" "bob@example.com" "pw",
    (claim4 dbW (by decide)).2.1 (some 1) (some 101) 4,
    (claim4 dbW (by decide)).2.2 true (some 1)⟩


/-- C10: add_to_cart never validates the quantity: for every integer quantity,
zero and negatives included, the call with an existing product succeeds and the
stored quantity for that product becomes the previous stored quantity plus the
requested one, so stored cart quantities can be non-positive. -/
theorem claim10 (db : DB) (uid pid : OId) (q : Int) (p : Product)
    (hp : findProduct db pid = some p)
    (hcid : (db.carts.map (fun c => c.cid)).Nodup) :
    ∃ db1 cart1,
      add_to_cart db (some uid) (some pid) q =
        (db1, .ok "Product added to cart successfully") ∧
      findCart db1 uid = some cart1 ∧
      storedQty cart1.items pid =
        (findCart db uid).elim 0 (fun c => storedQty c.items pid) + q := by
  cases hfc : findCart db uid with
  | none =>
    have hc' : db.carts.find? (fun c => c.user_id == uid) = none := hfc
    refine ⟨{db with
        carts := db.carts ++ [⟨db.nextId, uid, [⟨pid, q⟩], db.now⟩]
        nextId := db.nextId + 1},
      ⟨db.nextId, uid, [⟨pid, q⟩], db.now⟩,
      by simp [add_to_cart, hp, hfc], ?_, ?_⟩
    · show (db.carts ++ [(⟨db.nextId, uid, [⟨pid, q⟩], db.now⟩ : Cart)]).find?
        (fun c => c.user_id == uid) = _
      rw [List.find?_append, hc']
      simp [List.find?]
    · show storedQty [⟨pid, q⟩] pid = (none : Option Cart).elim 0 _ + q
      simp [storedQty, List.find?, Option.elim]
  | some cart =>
    refine ⟨{db with carts := updateCartById db.carts cart.cid (mergeCartItems cart.items pid q) db.now},
      {cart with items := mergeCartItems cart.items pid q, updated_at := db.now},
      by simp [add_to_cart, hp, hfc],
      findCart_updateCartById hfc hcid _ db.now, ?_⟩
    show storedQty (mergeCartItems cart.items pid q) pid = _
    rw [storedQty_mergeCartItems]
    simp [Option.elim]

theorem claim10_witness :
    ∃ db1 cart1,
      add_to_cart dbEmptyCart (some 1) (some 100) (-3) =
        (db1, .ok "Product added to cart successfully") ∧
      findCart db1 1 = some cart1 ∧
      storedQty cart1.items 100 =
        (findCart dbEmptyCart 1).elim 0 (fun c => storedQty c.items 100) + (-3) :=
  claim10 dbEmptyCart 1 100 (-3) prodA (by decide) (by decide)

/-- C2: adding the same product twice merges into a single line item whose
quantity is the previous stored quantity plus both requested amounts
(increment, not replace); a product_id not yet present is appended as a new
entry at the end. -/
theorem claim2 (db : DB) (uid pid : OId) (q1 q2 : Int) (p : Product) (cart : Cart)
    (hp : findProduct db pid = some p)
    (hc : findCart db uid = some cart)
    (hnd : (itemPids cart.items).Nodup)
    (hcid : (db.carts.map (fun c => c.cid)).Nodup) :
    ∃ db2 cart2,
      (add_to_cart db (some uid) (some pid) q1).2 =
        .ok "Product added to cart successfully" ∧
      add_to_cart (add_to_cart db (some uid) (some pid) q1).1 (some uid) (some pid) q2 =
        (db2, .ok "Product added to cart successfully") ∧
      findCart db2 uid = some cart2 ∧
      cart2.items.countP (fun it => it.product_id == pid) = 1 ∧
      storedQty cart2.items pid = storedQty cart.items pid + q1 + q2 ∧
      (pid ∉ itemPids cart.items → cart2.items = cart.items ++ [⟨pid, q1 + q2⟩]) := by
  have hc' : db.carts.find? (fun c => c.user_id == uid) = some cart := hc
  have e1 : add_to_cart db (some uid) (some pid) q1 =
      ({db with carts := updateCartById db.carts cart.cid (mergeCartItems cart.items pid q1) db.now},
        .ok "Product added to cart successfully") := by
    simp [add_to_cart, hp, hc]
  have hp1 : findProduct {db with carts := updateCartById db.carts cart.cid (mergeCartItems cart.items pid q1) db.now} pid = some p := hp
  have hc1 : findCart {db with carts := updateCartById db.carts cart.cid (mergeCartItems cart.items pid q1) db.now} uid =
      some {cart with items := mergeCartItems cart.items pid q1, updated_at := db.now} :=
    findCart_updateCartById hc' hcid _ db.now
  have hcid1 : ((updateCartById db.carts cart.cid (mergeCartItems cart.items pid q1) db.now).map (fun c => c.cid)).Nodup := by
    rw [map_cid_updateCartById]
    exact hcid
  have e2 : add_to_cart {db with carts := updateCartById db.carts cart.cid (mergeCartItems cart.items pid q1) db.now} (some uid) (some pid) q2 =
      ({db with carts := updateCartById (updateCartById db.carts cart.cid (mergeCartItems cart.items pid q1) db.now) cart.cid (mergeCartItems (mergeCartItems cart.items pid q1) pid q2) db.now},
        .ok "Product added to cart successfully") := by
    simp [add_to_cart, hp1, hc1]
  have hc2 : findCart {db with carts := updateCartById (updateCartById db.carts cart.cid (mergeCartItems cart.items pid q1) db.now) cart.cid (mergeCartItems (mergeCartItems cart.items pid q1) pid q2) db.now} uid =
      some {cart with items := mergeCartItems (mergeCartItems cart.items pid q1) pid q2, updated_at := db.now} :=
    findCart_updateCartById hc1 hcid1 _ db.now
  refine ⟨_, _, ?_, ?_, hc2, ?_, ?_, ?_⟩
  · rw [e1]
  · rw [e1]
    exact e2
  · exact countP_mergeCartItems q2 (nodup_itemPids_mergeCartItems hnd)
  · show storedQty (mergeCartItems (mergeCartItems cart.items pid q1) pid q2) pid = _
    rw [storedQty_mergeCartItems, storedQty_mergeCartItems]
  · intro hm
    show mergeCartItems (mergeCartItems cart.items pid q1) pid q2 = _
    rw [mergeCartItems_of_not_mem hm, mergeCartItems_append q1 q2 hm]

theorem claim2_witness :
    ∃ db2 cart2,
      (add_to_cart dbW (some 1) (some 100) 3).2 =
        .ok "Product added to cart successfully" ∧
      add_to_cart (add_to_cart dbW (some 1) (some 100) 3).1 (some 1) (some 100) 4 =
        (db2, .ok "Product added to cart successfully") ∧
      findCart db2 1 = some cart2 ∧
      cart2.items.countP (fun it => it.product_id == 100) = 1 ∧
      storedQty cart2.items 100 = storedQty [⟨100, 2⟩] 100 + 3 + 4 ∧
      (100 ∉ itemPids [⟨100, 2⟩] → cart2.items = [⟨100, 2⟩] ++ [⟨100, 3 + 4⟩]) :=
  claim2 dbW 1 100 3 4 prodA ⟨50, 1, [⟨100, 2⟩], 0⟩ (by decide) (by decide)
    (by decide) (by decide)
